import Mathlib

set_option maxRecDepth 100000

/-!
Shallow embedding of the search-and-recommend widget in src/static/app.js.

Strings are modelled as List Char. JS objects whose fields may be absent are
modelled with Option fields; the JS coercions that the source applies to such
fields (String(x) inside escapeHTML, x || fallback) are modelled explicitly by
jsString and jsOr. The event-loop behaviour of initHeroRecommendations (the
debounce handler, the run closure and the AbortController protocol) is
modelled as a small-step machine further below.
-/

/-- The whitespace characters removed by JS String.prototype.trim: the
WhiteSpace and LineTerminator code points (TAB, LF, VT, FF, CR, SP, NBSP,
OGHAM SPACE MARK, the Zs range 0x2000-0x200A, LS, PS, NNBSP, MMSP,
IDEOGRAPHIC SPACE, FEFF). -/
def jsIsWhitespace (c : Char) : Bool :=
  c.toNat = 9 || c.toNat = 10 || c.toNat = 11 || c.toNat = 12 || c.toNat = 13 ||
  c.toNat = 32 || c.toNat = 160 || c.toNat = 5760 ||
  (8192 ≤ c.toNat && c.toNat ≤ 8202) ||
  c.toNat = 8232 || c.toNat = 8233 || c.toNat = 8239 || c.toNat = 8287 ||
  c.toNat = 12288 || c.toNat = 65279

/-- JS String.prototype.trim: remove whitespace from both ends
(app.js line 64 applies it to the input value). -/
def jsTrim (s : List Char) : List Char :=
  ((s.dropWhile jsIsWhitespace).reverse.dropWhile jsIsWhitespace).reverse

/-- JS String(x) coercion applied to a possibly-absent string field:
an absent field (undefined) coerces to the literal text "undefined". -/
def jsString : Option (List Char) → List Char
  | none => "undefined".toList
  | some s => s

/-- JS `x || d` applied to a possibly-absent string field: undefined and the
empty string are falsy, every other string is truthy. -/
def jsOr (x : Option (List Char)) (d : List Char) : List Char :=
  match x with
  | none => d
  | some s => if s.isEmpty then d else s

/-- JS String.prototype.replaceAll with a one-character pattern: every
occurrence of the character c is replaced by r (app.js lines 13-17 only ever
use one-character patterns). -/
def replaceAllChar (s : List Char) (c : Char) (r : List Char) : List Char :=
  s.flatMap fun x => if x = c then r else [x]

/-- escapeHTML from app.js lines 11-18: the chained replaceAll calls, in
source order (ampersand first, then the angle brackets and both quotes). -/
def escapeHTML (s : List Char) : List Char :=
  replaceAllChar (replaceAllChar (replaceAllChar (replaceAllChar (replaceAllChar s
    '&' "&amp;".toList) '<' "&lt;".toList) '>' "&gt;".toList)
    (Char.ofNat 34) "&quot;".toList) (Char.ofNat 39) "&#39;".toList

/-- Character-wise escaping map, following the wording of the spec: each of
the five characters ampersand, less-than, greater-than, double quote, single
quote is replaced by its HTML entity, every other character is kept. -/
def escChar (c : Char) : List Char :=
  if c = '&' then "&amp;".toList
  else if c = '<' then "&lt;".toList
  else if c = '>' then "&gt;".toList
  else if c = Char.ofNat 34 then "&quot;".toList
  else if c = Char.ofNat 39 then "&#39;".toList
  else [c]

/-- Spec-side escaping: apply escChar to every character. -/
def escapeHTMLSpec (s : List Char) : List Char := s.flatMap escChar

/-- Upper-case hexadecimal digits. -/
def hexChars : List Char := "0123456789ABCDEF".toList

/-- The n-th upper-case hexadecimal digit. -/
def hexDigit (n : Nat) : Char := hexChars.getD n 'F'

/-- The characters that JS encodeURIComponent leaves unchanged:
A-Z, a-z, 0-9 and - _ . ! ~ * apostrophe ( ). -/
def isUnreservedURI (c : Char) : Bool :=
  (65 ≤ c.toNat && c.toNat ≤ 90) || (97 ≤ c.toNat && c.toNat ≤ 122) ||
  (48 ≤ c.toNat && c.toNat ≤ 57) ||
  c.toNat = 45 || c.toNat = 95 || c.toNat = 46 || c.toNat = 33 ||
  c.toNat = 126 || c.toNat = 42 || c.toNat = 39 || c.toNat = 40 || c.toNat = 41

/-- UTF-8 encoding of a scalar value. -/
def utf8Bytes (n : Nat) : List Nat :=
  if n < 128 then [n]
  else if n < 2048 then [192 + n / 64, 128 + n % 64]
  else if n < 65536 then [224 + n / 4096, 128 + n / 64 % 64, 128 + n % 64]
  else [240 + n / 262144, 128 + n / 4096 % 64, 128 + n / 64 % 64, 128 + n % 64]

/-- Percent-encoding of one byte, upper-case hex as produced by
encodeURIComponent. -/
def pctByte (b : Nat) : List Char := ['%', hexDigit (b / 16), hexDigit (b % 16)]

/-- JS encodeURIComponent: unreserved characters pass through, every other
character is UTF-8 encoded and percent-escaped (app.js line 21). -/
def encodeURIComponent (s : List Char) : List Char :=
  s.flatMap fun c => if isUnreservedURI c then [c] else (utf8Bytes c.toNat).flatMap pctByte

/-- A recommendation Tool as consumed by renderToolCard. Every field a JS
object may lack is an Option. -/
structure Tool where
  slug : Option (List Char)
  name : Option (List Char)
  url : Option (List Char)
  icon : Option (List Char)
  pricing_type : Option (List Char)
  description : Option (List Char)
  category : Option (List Char)
  use_cases : Option (List (List Char))
deriving DecidableEq

/-- Template text of app.js lines 24-28 up to the icon hole. -/
def cardA1 : List Char :=
  "\n    <div class=\"glass-card group flex h-full flex-col overflow-hidden\">\n      <div class=\"flex items-start gap-4 p-5\">\n        <div class=\"grid h-11 w-11 shrink-0 place-items-center rounded-2xl bg-white/10 ring-1 ring-white/15\">\n          <span class=\"text-sm font-semibold text-white/90\">".toList

/-- Template text between the icon hole and the detail anchor of line 32. -/
def cardA2 : List Char :=
  "</span>\n        </div>\n        <div class=\"min-w-0 flex-1\">\n          <div class=\"flex items-center justify-between gap-3\">\n            ".toList

/-- The opening of an anchor tag with an href attribute. -/
def hrefOpen : List Char := "<a href=\"".toList

/-- Template text between the detail href hole and the name hole (line 32). -/
def cardA3 : List Char :=
  "\" class=\"truncate text-base font-semibold tracking-tight text-white hover:text-white/90\">".toList

/-- Template text between the name hole and the pricing hole (lines 32-33). -/
def cardA4 : List Char :=
  "</a>\n            <span class=\"badge\">".toList

/-- Template text between the pricing hole and the description hole
(lines 33-35). -/
def cardA5 : List Char :=
  "</span>\n          </div>\n          <p class=\"mt-1 line-clamp-2 text-sm text-white/70\">".toList

/-- Template text between the description hole and the category hole
(lines 35-37). -/
def cardA6 : List Char :=
  "</p>\n          <div class=\"mt-3 flex flex-wrap gap-2\">\n            <span class=\"pill\">".toList

/-- Template text between the category hole and the use-case pills hole
(lines 37-38). -/
def cardA7 : List Char :=
  "</span>\n            ".toList

/-- Template text between the pills hole and the visit anchor (lines 38-44). -/
def cardA8 : List Char :=
  "\n          </div>\n        </div>\n      </div>\n      <div class=\"mt-auto border-t border-white/10 p-5\">\n        <div class=\"flex items-center justify-between gap-3\">\n          ".toList

/-- Template text between the visit href hole and the second detail anchor
(lines 44-45). -/
def cardA9 : List Char :=
  "\" target=\"_blank\" rel=\"noopener noreferrer\" class=\"inline-flex items-center justify-center rounded-xl bg-white px-4 py-2 text-sm font-semibold text-slate-900 hover:bg-white/90\">Visit Tool</a>\n          ".toList

/-- Template text after the second detail href hole (lines 45-49). -/
def cardA10 : List Char :=
  "\" class=\"text-sm font-semibold text-white/70 hover:text-white\">Details</a>\n        </div>\n      </div>\n    </div>\n  ".toList

/-- One use-case tag pill, as produced by the map on app.js line 38. -/
def pillMuted (x : List Char) : List Char :=
  "<span class=\"pill pill-muted\">".toList ++ escapeHTML x ++ "</span>".toList

/-- The use-case pill section: (tool.use_cases or empty).slice(0,3) rendered
as pills and joined with the empty separator (app.js line 38). -/
def useCasePills (t : Tool) : List Char :=
  List.flatten ((((t.use_cases).getD []).take 3).map pillMuted)

/-- The detail link target: /tools/ followed by the URL-encoded slug
(app.js line 21). -/
def toolHref (t : Tool) : List Char :=
  "/tools/".toList ++ encodeURIComponent (jsString t.slug)

/-- renderToolCard from app.js lines 20-50: the template literal with its
eight holes. icon falls back to AI, pricing_type, description and category
fall back to the empty string via the JS or-operator; name has no fallback,
so an absent name is coerced by String() inside escapeHTML; the visit href
receives tool.url verbatim. -/
def renderToolCard (t : Tool) : List Char :=
  cardA1 ++ escapeHTML (jsOr t.icon "AI".toList) ++
  cardA2 ++ hrefOpen ++ toolHref t ++
  cardA3 ++ escapeHTML (jsString t.name) ++
  cardA4 ++ escapeHTML (jsOr t.pricing_type []) ++
  cardA5 ++ escapeHTML (jsOr t.description []) ++
  cardA6 ++ escapeHTML (jsOr t.category []) ++
  cardA7 ++ useCasePills t ++
  cardA8 ++ hrefOpen ++ jsString t.url ++
  cardA9 ++ hrefOpen ++ toolHref t ++
  cardA10

/-- One request made by run (app.js lines 71-75): its sequence number, the
AbortController created for it, and the task payload. -/
structure Req where
  rid : Nat
  ctrl : Nat
  task : List Char
deriving DecidableEq

/-- The JSON value returned by res.json(). data.tools is read with the
or-operator, so an absent tools field and a null tools field both behave as
none; a parsed null document makes data.tools throw, which the catch
handler absorbs, so it is kept as a separate constructor. A parsed
non-object non-null document yields undefined at data.tools and behaves as
obj none. -/
inductive JData
  | nullv
  | obj (tools : Option (List Tool))
deriving DecidableEq

/-- What the network does with one request: a response arrives with an HTTP
status and a body that either parses as JSON (some) or does not (none), or
the transport fails. An abort is not listed here because aborting rejects
the pending promise at abort time; the machine performs that rejection
inside the fire step. -/
inductive NetOutcome
  | response (status : Nat) (body : Option JData)
  | netError
deriving DecidableEq

/-- Observable happenings, recorded in order: a request was issued, a
request was aborted, a response was rendered into the grid. -/
inductive LogEntry
  | issued (rid : Nat) (task : List Char)
  | aborted (rid : Nat)
  | rendered (rid : Nat) (tools : List Tool)
deriving DecidableEq

/-- Events delivered to the widget by its environment: the debounce timer
fires while the input field holds v, or the network settles request rid. -/
inductive MEv
  | fire (v : List Char)
  | respond (rid : Nat) (res : NetOutcome)
deriving DecidableEq

/-- The state of the widget: the fetches currently in flight, the
lastController variable (app.js line 60), a counter supplying fresh
request/controller identities, the hidden class of the results panel, the
innerHTML of the grid, and the event log. -/
structure MState where
  pending : List Req
  lastController : Option Nat
  nextId : Nat
  hidden : Bool
  grid : List Char
  log : List LogEntry
deriving DecidableEq

/-- recs.classList.add("hidden"); grid.innerHTML = "" - the shared
hide-and-clear effect of app.js lines 66-67, 79-80 and 87-88. -/
def hideClear (s : MState) : MState := { s with hidden := true, grid := [] }

/-- The initial state: no fetch, lastController = null, panel state as the
page loads. -/
def initState : MState :=
  { pending := [], lastController := none, nextId := 0,
    hidden := true, grid := [], log := [] }

/-- The debounce timer fires and run executes while the input holds v
(app.js lines 63-75). If the trimmed task is shorter than 3 the panel is
hidden, the grid cleared, and run returns without touching the network.
Otherwise lastController.abort() is called: the fetch tied to that
controller (if still pending) rejects immediately, and its catch handler
(lines 86-89) hides the panel and clears the grid before the new request
can settle; then a fresh controller is stored in lastController and the new
request goes out. -/
def fireStep (s : MState) (v : List Char) : MState :=
  if (jsTrim v).length < 3 then hideClear s
  else
    { pending := (s.pending.filter fun r => !(s.lastController == some r.ctrl)) ++
                 [⟨s.nextId, s.nextId, jsTrim v⟩],
      lastController := some s.nextId,
      nextId := s.nextId + 1,
      hidden := if (s.pending.filter fun r => s.lastController == some r.ctrl).isEmpty
                then s.hidden else true,
      grid := if (s.pending.filter fun r => s.lastController == some r.ctrl).isEmpty
              then s.grid else [],
      log := s.log ++
             (s.pending.filter fun r => s.lastController == some r.ctrl).map
               (fun r => LogEntry.aborted r.rid) ++
             [LogEntry.issued s.nextId (jsTrim v)] }

/-- The network settles request rid (app.js lines 75-89). Only a fetch still
in flight can settle; the request leaves the in-flight set either way. A
transport error, a body that is not JSON, and a parsed null document all end
in the catch handler: hide and clear. A parsed object is inspected for
data.tools: an empty (or absent) list hides and clears, otherwise the first
five tools are rendered and the panel is shown. The HTTP status is never
inspected. -/
def respondStep (s : MState) (rid : Nat) (res : NetOutcome) : MState :=
  match s.pending.find? (fun q => q.rid == rid) with
  | none => s
  | some _ =>
    match res with
    | NetOutcome.netError =>
      hideClear { s with pending := s.pending.filter fun q => !(q.rid == rid) }
    | NetOutcome.response _ none =>
      hideClear { s with pending := s.pending.filter fun q => !(q.rid == rid) }
    | NetOutcome.response _ (some JData.nullv) =>
      hideClear { s with pending := s.pending.filter fun q => !(q.rid == rid) }
    | NetOutcome.response _ (some (JData.obj toolsOpt)) =>
      if (toolsOpt.getD []).isEmpty then
        hideClear { s with pending := s.pending.filter fun q => !(q.rid == rid) }
      else
        { s with pending := s.pending.filter fun q => !(q.rid == rid),
                 grid := List.flatten (((toolsOpt.getD []).take 5).map renderToolCard),
                 hidden := false,
                 log := s.log ++ [LogEntry.rendered rid (toolsOpt.getD [])] }

/-- One step of the widget. -/
def step (s : MState) : MEv → MState
  | MEv.fire v => fireStep s v
  | MEv.respond rid res => respondStep s rid res

/-- Run the widget from the initial state over a list of events. -/
def exec (evs : List MEv) : MState := evs.foldl step initState

/-- The tasks of the requests issued so far, in order. -/
def issuedTasks (s : MState) : List (List Char) :=
  s.log.filterMap fun e =>
    match e with
    | LogEntry.issued _ t => some t
    | _ => none

/-- One step of the debounce timer protocol of app.js lines 92-95, folded
over timed input events. The accumulator holds the armed timer (its fire
time and the input value it will see) and the fires that already happened.
An input event at time t first lets an armed timer whose fire time has
passed fire, then clearTimeout cancels whatever is armed and setTimeout
re-arms the timer for t + 450 with the new value. -/
def debounceStep (acc : Option (Nat × List Char) × List (Nat × List Char))
    (e : Nat × List Char) : Option (Nat × List Char) × List (Nat × List Char) :=
  match acc with
  | (some f, fired) =>
    if f.1 ≤ e.1 then (some (e.1 + 450, e.2), fired ++ [f])
    else (some (e.1 + 450, e.2), fired)
  | (none, fired) => (some (e.1 + 450, e.2), fired)

/-- All debounce timer fires produced by a timed input sequence, run to
quiescence: after the last input event nothing cancels the armed timer, so
it fires. Each fire carries the input value the run closure will read. -/
def debounceTrace (ins : List (Nat × List Char)) : List (Nat × List Char) :=
  match ins.foldl debounceStep (none, []) with
  | (some f, fired) => fired ++ [f]
  | (none, fired) => fired

/-- A timed input sequence is rapid when its times strictly increase and
consecutive events are less than 450 apart. -/
def Rapid (ins : List (Nat × List Char)) : Prop :=
  List.Chain' (fun p q => p.1 < q.1 ∧ q.1 < p.1 + 450) ins

/-- A demonstration tool with the minimum of content. -/
def demoTool : Tool :=
  { slug := some "t".toList, name := some "T".toList, url := some "u".toList,
    icon := none, pricing_type := none, description := none,
    category := none, use_cases := none }

/-- The tool of the spec example: its name is a script tag. -/
def scriptTool : Tool :=
  { slug := some "x".toList, name := some "<script>x</script>".toList,
    url := some "https://e".toList, icon := none, pricing_type := none,
    description := none, category := none, use_cases := none }

/-- A tool every one of whose fields is absent. -/
def emptyTool : Tool :=
  { slug := none, name := none, url := none, icon := none,
    pricing_type := none, description := none, category := none,
    use_cases := none }

/-- Seven copies of the demonstration tool: the seven-tool response of the
spec example. -/
def sevenTools : List Tool := List.replicate 7 demoTool

/-- A demonstration trace: a search for hello is issued, its response is
rendered, then a search for world is issued. -/
def traceAB : List MEv :=
  [MEv.fire "hello".toList,
   MEv.respond 0 (NetOutcome.response 200 (some (JData.obj (some [demoTool])))),
   MEv.fire "world".toList]

/-- A demonstration trace with a single search for hello, still in flight. -/
def traceHello : List MEv := [MEv.fire "hello".toList]

/-- The request that traceHello leaves in flight. -/
def reqHello : Req := Req.mk 0 0 (jsTrim "hello".toList)

/-- A rapid input sequence whose final value is below the length threshold. -/
def insShort : List (Nat × List Char) := [(0, "abc".toList), (100, "x".toList)]

/-- A rapid input sequence whose final value passes the length threshold. -/
def insLong : List (Nat × List Char) := [(0, "hi".toList), (100, "hello world".toList)]

/-- Executable check that the first list is an initial segment of the
second. -/
def startsWithL : List Char → List Char → Bool
  | [], _ => true
  | _ :: _, [] => false
  | a :: as, b :: bs => a == b && startsWithL as bs

/-- Executable substring check: does the first list occur contiguously
inside the second? -/
def containsSub : List Char → List Char → Bool
  | n, [] => n.isEmpty
  | n, c :: t => startsWithL n (c :: t) || containsSub n t

/-- Well-formedness of the event log with respect to the id counter n:
issued identities are below n, issue entries appear in strictly increasing
id order, and a render can only follow the issue of a request with a
smaller or equal id (renders belong to the most recent issue). A sublist
[x, y] of L is exactly an occurrence of x strictly before an occurrence
of y. -/
def GoodLog (L : List LogEntry) (n : Nat) : Prop :=
  (∀ r t, LogEntry.issued r t ∈ L → r < n) ∧
  (∀ a b ta tb, [LogEntry.issued a ta, LogEntry.issued b tb].Sublist L → a < b) ∧
  (∀ a b tb tl, [LogEntry.issued b tb, LogEntry.rendered a tl].Sublist L → b ≤ a)

/-- The machine invariant: the log is well formed, at most one fetch is in
flight, and an in-flight fetch is tied to the controller currently stored
in lastController and is the most recently issued request. -/
def MInv (s : MState) : Prop :=
  GoodLog s.log s.nextId ∧
  s.pending.length ≤ 1 ∧
  ∀ r ∈ s.pending, s.lastController = some r.ctrl ∧ r.rid + 1 = s.nextId

theorem replaceAllChar_cons (x : Char) (s : List Char) (c : Char) (r : List Char) :
    replaceAllChar (x :: s) c r = (if x = c then r else [x]) ++ replaceAllChar s c r := by
  simp [replaceAllChar, List.flatMap_cons]

theorem replaceAllChar_append (s t : List Char) (c : Char) (r : List Char) :
    replaceAllChar (s ++ t) c r = replaceAllChar s c r ++ replaceAllChar t c r := by
  simp [replaceAllChar, List.flatMap_append]

theorem escChain_single (c : Char) :
    replaceAllChar (replaceAllChar (replaceAllChar (replaceAllChar
      (if c = '&' then "&amp;".toList else [c])
      '<' "&lt;".toList) '>' "&gt;".toList)
      (Char.ofNat 34) "&quot;".toList) (Char.ofNat 39) "&#39;".toList = escChar c := by
  by_cases h1 : c = '&'
  · subst h1; decide
  by_cases h2 : c = '<'
  · subst h2; decide
  by_cases h3 : c = '>'
  · subst h3; decide
  by_cases h4 : c = Char.ofNat 34
  · subst h4; decide
  by_cases h5 : c = Char.ofNat 39
  · subst h5; decide
  simp [replaceAllChar, escChar, h1, h2, h3, h4, h5]

theorem escapeHTML_cons (c : Char) (s : List Char) :
    escapeHTML (c :: s) = escChar c ++ escapeHTML s := by
  unfold escapeHTML
  rw [replaceAllChar_cons]
  simp only [replaceAllChar_append]
  rw [escChain_single]

/-- The source escaping (chained replaceAll, ampersand first) coincides with
the character-wise escaping the spec describes. -/
theorem escapeHTML_eq_spec (s : List Char) : escapeHTML s = escapeHTMLSpec s := by
  induction s with
  | nil => rfl
  | cons c t ih =>
    rw [escapeHTML_cons, ih]
    simp [escapeHTMLSpec, List.flatMap_cons]

theorem lt_notMem_escChar (c : Char) : '<' ∉ escChar c := by
  intro hmem
  unfold escChar at hmem
  split at hmem
  · revert hmem; decide
  split at hmem
  · revert hmem; decide
  split at hmem
  · revert hmem; decide
  split at hmem
  · revert hmem; decide
  split at hmem
  · revert hmem; decide
  exact absurd (List.mem_singleton.mp hmem).symm (by assumption)

theorem lt_notMem_escapeHTML (s : List Char) : '<' ∉ escapeHTML s := by
  rw [escapeHTML_eq_spec]
  intro hmem
  simp only [escapeHTMLSpec, List.mem_flatMap] at hmem
  obtain ⟨a, -, ha⟩ := hmem
  exact lt_notMem_escChar a ha

theorem hexDigit_ne_lt (n : Nat) : hexDigit n ≠ '<' := by
  unfold hexDigit
  rw [List.getD_eq_getElem?_getD]
  cases h : hexChars[n]? with
  | none => decide
  | some c =>
    have hc : c ∈ hexChars := List.getElem?_mem h
    intro hlt
    rw [Option.getD_some] at hlt
    subst hlt
    revert hc
    decide

theorem lt_notMem_encode (s : List Char) : '<' ∉ encodeURIComponent s := by
  intro hmem
  simp only [encodeURIComponent, List.mem_flatMap] at hmem
  obtain ⟨c, -, hc⟩ := hmem
  by_cases h : isUnreservedURI c = true
  · rw [if_pos h] at hc
    rw [List.mem_singleton] at hc
    subst hc
    exact absurd h (by decide)
  · rw [if_neg h] at hc
    simp only [List.mem_flatMap] at hc
    obtain ⟨b, -, hb⟩ := hc
    simp only [pctByte, List.mem_cons, List.mem_singleton] at hb
    rcases hb with hb | hb | hb | hb
    · exact absurd hb (by decide)
    · exact hexDigit_ne_lt (b / 16) hb.symm
    · exact hexDigit_ne_lt (b % 16) hb.symm
    · exact List.not_mem_nil _ hb

theorem count_lt_pills (l : List (List Char)) :
    List.count '<' (List.flatten (l.map pillMuted)) = 2 * l.length := by
  induction l with
  | nil => rfl
  | cons x t ih =>
    rw [List.map_cons, List.flatten_cons, List.count_append, ih, pillMuted,
        List.count_append, List.count_append,
        List.count_eq_zero.mpr (lt_notMem_escapeHTML x)]
    have h1 : List.count '<' "<span class=\"pill pill-muted\">".toList = 1 := by decide
    have h2 : List.count '<' "</span>".toList = 1 := by decide
    rw [h1, h2, List.length_cons]
    omega

/-- With a url free of raw angle brackets, the rendered card contains exactly
the 30 template less-than signs plus two per rendered use-case pill: none of
the escaped or URL-encoded holes can contribute one. -/
theorem count_lt_render (t : Tool) (hurl : '<' ∉ jsString t.url) :
    List.count '<' (renderToolCard t) =
      30 + 2 * (((t.use_cases).getD []).take 3).length := by
  unfold renderToolCard useCasePills toolHref
  simp only [List.count_append]
  rw [List.count_eq_zero.mpr (lt_notMem_escapeHTML (jsOr t.icon "AI".toList)),
      List.count_eq_zero.mpr (lt_notMem_escapeHTML (jsString t.name)),
      List.count_eq_zero.mpr (lt_notMem_escapeHTML (jsOr t.pricing_type [])),
      List.count_eq_zero.mpr (lt_notMem_escapeHTML (jsOr t.description [])),
      List.count_eq_zero.mpr (lt_notMem_escapeHTML (jsOr t.category [])),
      List.count_eq_zero.mpr (lt_notMem_encode (jsString t.slug)),
      List.count_eq_zero.mpr hurl,
      count_lt_pills]
  have hA1 : List.count '<' cardA1 = 4 := by decide
  have hA2 : List.count '<' cardA2 = 4 := by decide
  have hA3 : List.count '<' cardA3 = 0 := by decide
  have hA4 : List.count '<' cardA4 = 2 := by decide
  have hA5 : List.count '<' cardA5 = 3 := by decide
  have hA6 : List.count '<' cardA6 = 3 := by decide
  have hA7 : List.count '<' cardA7 = 1 := by decide
  have hA8 : List.count '<' cardA8 = 5 := by decide
  have hA9 : List.count '<' cardA9 = 1 := by decide
  have hA10 : List.count '<' cardA10 = 4 := by decide
  have hHr : List.count '<' hrefOpen = 1 := by decide
  have hT : List.count '<' "/tools/".toList = 0 := by decide
  rw [hA1, hA2, hA3, hA4, hA5, hA6, hA7, hA8, hA9, hA10, hHr, hT]
  omega

theorem pair_sublist_append {x y : LogEntry} {L M : List LogEntry}
    (h : [x, y].Sublist (L ++ M)) :
    [x, y].Sublist L ∨ (x ∈ L ∧ y ∈ M) ∨ [x, y].Sublist M := by
  rw [List.sublist_append_iff] at h
  obtain ⟨l₁, l₂, heq, h1, h2⟩ := h
  match l₁, heq with
  | [], heq =>
    rw [List.nil_append] at heq
    subst heq
    exact Or.inr (Or.inr h2)
  | [a], heq =>
    rw [List.singleton_append, List.cons_eq_cons] at heq
    obtain ⟨rfl, heq2⟩ := heq
    subst heq2
    exact Or.inr (Or.inl ⟨List.singleton_sublist.mp h1, List.singleton_sublist.mp h2⟩)
  | a :: b :: l, heq =>
    rw [List.cons_append, List.cons_eq_cons] at heq
    obtain ⟨rfl, heq2⟩ := heq
    rw [List.cons_append, List.cons_eq_cons] at heq2
    obtain ⟨rfl, heq3⟩ := heq2
    have hl : l = [] ∧ l₂ = [] := by
      have := congrArg List.length heq3
      simp at this
      have hl1 : l.length = 0 := by omega
      have hl2 : l₂.length = 0 := by omega
      exact ⟨List.eq_nil_of_length_eq_zero hl1, List.eq_nil_of_length_eq_zero hl2⟩
    obtain ⟨rfl, rfl⟩ := hl
    exact Or.inl h1

theorem goodLog_append_abort_issue (L : List LogEntry) (n m : Nat) (task : List Char)
    (A : List LogEntry) (hG : GoodLog L n) (hnm : n ≤ m)
    (hA : ∀ e ∈ A, ∃ q, e = LogEntry.aborted q) :
    GoodLog (L ++ (A ++ [LogEntry.issued m task])) (m + 1) := by
  obtain ⟨hB, hK, hQ⟩ := hG
  refine ⟨?_, ?_, ?_⟩
  · intro r t hmem
    rcases List.mem_append.mp hmem with h | h
    · exact lt_of_lt_of_le (hB r t h) (by omega)
    · rcases List.mem_append.mp h with h | h
      · obtain ⟨q, hq⟩ := hA _ h
        simp at hq
      · rw [List.mem_singleton] at h
        injection h with h1 h2
        omega
  · intro a b ta tb hsub
    rcases pair_sublist_append hsub with h | ⟨hx, hy⟩ | h
    · exact hK a b ta tb h
    · rcases List.mem_append.mp hy with h | h
      · obtain ⟨q, hq⟩ := hA _ h
        simp at hq
      · rw [List.mem_singleton] at h
        injection h with h1 h2
        subst h1
        exact lt_of_lt_of_le (hB a ta hx) hnm
    · rcases pair_sublist_append h with h | ⟨hx, hy⟩ | h
      · obtain ⟨q, hq⟩ := hA _ (h.subset (List.mem_cons_self _ _))
        simp at hq
      · obtain ⟨q, hq⟩ := hA _ hx
        simp at hq
      · have := h.length_le
        simp at this
  · intro a b tb tl hsub
    rcases pair_sublist_append hsub with h | ⟨hx, hy⟩ | h
    · exact hQ a b tb tl h
    · rcases List.mem_append.mp hy with h | h
      · obtain ⟨q, hq⟩ := hA _ h
        simp at hq
      · rw [List.mem_singleton] at h
        simp at h
    · rcases pair_sublist_append h with h | ⟨hx, hy⟩ | h
      · obtain ⟨q, hq⟩ := hA _ (h.subset (List.mem_cons_self _ _))
        simp at hq
      · rw [List.mem_singleton] at hy
        simp at hy
      · have := h.length_le
        simp at this

theorem goodLog_append_rendered (L : List LogEntry) (n a : Nat) (tl : List Tool)
    (hG : GoodLog L n) (ha : a + 1 = n) :
    GoodLog (L ++ [LogEntry.rendered a tl]) n := by
  obtain ⟨hB, hK, hQ⟩ := hG
  refine ⟨?_, ?_, ?_⟩
  · intro r t hmem
    rcases List.mem_append.mp hmem with h | h
    · exact hB r t h
    · rw [List.mem_singleton] at h
      simp at h
  · intro x y tx ty hsub
    rcases pair_sublist_append hsub with h | ⟨hx, hy⟩ | h
    · exact hK x y tx ty h
    · rw [List.mem_singleton] at hy
      simp at hy
    · have := h.length_le
      simp at this
  · intro x b tb tl2 hsub
    rcases pair_sublist_append hsub with h | ⟨hx, hy⟩ | h
    · exact hQ x b tb tl2 h
    · rw [List.mem_singleton] at hy
      injection hy with h1 h2
      have := hB b tb hx
      omega
    · have := h.length_le
      simp at this

theorem minv_fireStep (s : MState) (v : List Char) (h : MInv s) :
    MInv (fireStep s v) := by
  obtain ⟨hG, hLen, hPend⟩ := h
  unfold fireStep
  by_cases hshort : (jsTrim v).length < 3
  · rw [if_pos hshort]
    exact ⟨hG, hLen, hPend⟩
  · rw [if_neg hshort]
    have hkept : (s.pending.filter fun r => !(s.lastController == some r.ctrl)) = [] := by
      rw [List.filter_eq_nil_iff]
      intro r hr
      have := (hPend r hr).1
      simp [this]
    refine ⟨?_, ?_, ?_⟩
    · show GoodLog (s.log ++ (s.pending.filter fun r => s.lastController == some r.ctrl).map
        (fun r => LogEntry.aborted r.rid) ++ [LogEntry.issued s.nextId (jsTrim v)]) (s.nextId + 1)
      rw [List.append_assoc]
      refine goodLog_append_abort_issue s.log s.nextId s.nextId (jsTrim v) _ hG (le_refl _) ?_
      intro e he
      rw [List.mem_map] at he
      obtain ⟨q, hq, heq⟩ := he
      exact ⟨q.rid, heq.symm⟩
    · show ((s.pending.filter fun r => !(s.lastController == some r.ctrl)) ++
        [Req.mk s.nextId s.nextId (jsTrim v)]).length ≤ 1
      rw [hkept]
      simp
    · intro r hr
      rw [hkept] at hr
      simp at hr
      subst hr
      exact ⟨rfl, rfl⟩

theorem minv_respondStep (s : MState) (rid : Nat) (res : NetOutcome) (h : MInv s) :
    MInv (respondStep s rid res) := by
  obtain ⟨hG, hLen, hPend⟩ := h
  unfold respondStep
  cases hfind : s.pending.find? (fun q => q.rid == rid) with
  | none => exact ⟨hG, hLen, hPend⟩
  | some r =>
    have hrmem : r ∈ s.pending := List.mem_of_find?_eq_some hfind
    have hrid : r.rid = rid := by
      have := List.find?_some hfind
      simpa using this
    have hpfilter : (s.pending.filter fun q => !(q.rid == rid)).length ≤ 1 :=
      le_trans (List.length_filter_le _ _) hLen
    have hpsub : ∀ q ∈ s.pending.filter (fun q => !(q.rid == rid)),
        s.lastController = some q.ctrl ∧ q.rid + 1 = s.nextId := by
      intro q hq
      exact hPend q (List.mem_of_mem_filter hq)
    cases res with
    | netError => exact ⟨hG, hpfilter, hpsub⟩
    | response st body =>
      cases body with
      | none => exact ⟨hG, hpfilter, hpsub⟩
      | some jd =>
        cases jd with
        | nullv => exact ⟨hG, hpfilter, hpsub⟩
        | obj toolsOpt =>
          dsimp only
          by_cases hemp : (toolsOpt.getD []).isEmpty
          · rw [if_pos hemp]
            exact ⟨hG, hpfilter, hpsub⟩
          · rw [if_neg hemp]
            refine ⟨?_, hpfilter, hpsub⟩
            have hr2 := (hPend r hrmem).2
            exact goodLog_append_rendered s.log s.nextId rid _ hG (by omega)

theorem minv_step (s : MState) (e : MEv) (h : MInv s) : MInv (step s e) := by
  cases e with
  | fire v => exact minv_fireStep s v h
  | respond rid res => exact minv_respondStep s rid res h

theorem minv_initState : MInv initState := by
  refine ⟨⟨?_, ?_, ?_⟩, ?_, ?_⟩
  · intro r t h
    simp [initState] at h
  · intro a b ta tb h
    have : ([LogEntry.issued a ta, LogEntry.issued b tb] : List LogEntry) = [] :=
      List.sublist_nil.mp h
    simp at this
  · intro a b tb tl h
    have : ([LogEntry.issued b tb, LogEntry.rendered a tl] : List LogEntry) = [] :=
      List.sublist_nil.mp h
    simp at this
  · simp [initState]
  · intro r hr
    simp [initState] at hr

theorem minv_exec (evs : List MEv) : MInv (exec evs) := by
  suffices h : ∀ s, MInv s → MInv (evs.foldl step s) from h initState minv_initState
  induction evs with
  | nil => intro s hs; exact hs
  | cons e t ih =>
    intro s hs
    exact ih (step s e) (minv_step s e hs)

theorem debounce_aux (tail : List (Nat × List Char)) :
    ∀ (t : Nat) (v : List Char) (fired : List (Nat × List Char)) (tn : Nat)
      (vn : List Char),
    Rapid ((t, v) :: tail) →
    ((t, v) :: tail).getLast? = some (tn, vn) →
    List.foldl debounceStep (some (t + 450, v), fired) tail =
      (some (tn + 450, vn), fired) := by
  induction tail with
  | nil =>
    intro t v fired tn vn hch hlast
    rw [List.getLast?_singleton] at hlast
    injection hlast with hlast
    injection hlast with h1 h2
    subst h1
    subst h2
    rfl
  | cons e rest ih =>
    intro t v fired tn vn hch hlast
    obtain ⟨t2, v2⟩ := e
    have hch2 := List.chain'_cons.mp hch
    rw [List.foldl_cons]
    have hgap : t < t2 ∧ t2 < t + 450 := by
      have h1 := hch2.1
      simpa using h1
    have hstep : debounceStep (some (t + 450, v), fired) (t2, v2) =
        (some (t2 + 450, v2), fired) := by
      show (if t + 450 ≤ t2 then (some (t2 + 450, v2), fired ++ [(t + 450, v)])
            else (some (t2 + 450, v2), fired)) = (some (t2 + 450, v2), fired)
      rw [if_neg (by omega)]
    rw [hstep]
    rw [List.getLast?_cons_cons] at hlast
    exact ih t2 v2 fired tn vn hch2.2 hlast

/-- A rapid input sequence produces exactly one debounce fire, 450 after its
last event, carrying the last value: every earlier armed timer is cancelled
by the next input before it can fire. -/
theorem debounceTrace_rapid (ins : List (Nat × List Char)) (tn : Nat)
    (vn : List Char) (hlast : ins.getLast? = some (tn, vn)) (hch : Rapid ins) :
    debounceTrace ins = [(tn + 450, vn)] := by
  cases ins with
  | nil => simp at hlast
  | cons e tail =>
    obtain ⟨t, v⟩ := e
    unfold debounceTrace
    rw [List.foldl_cons]
    have h0 : debounceStep (none, []) (t, v) = (some (t + 450, v), []) := rfl
    rw [h0, debounce_aux tail t v [] tn vn hch hlast]
    rfl


theorem startsWithL_iff (n : List Char) :
    ∀ h, startsWithL n h = true ↔ ∃ r, n ++ r = h := by
  induction n with
  | nil =>
    intro h
    simp [startsWithL]
  | cons a as ih =>
    intro h
    cases h with
    | nil =>
      simp [startsWithL]
    | cons b bs =>
      rw [show startsWithL (a :: as) (b :: bs) = (a == b && startsWithL as bs) from rfl,
          Bool.and_eq_true, beq_iff_eq, ih bs]
      constructor
      · rintro ⟨rfl, r, rfl⟩
        exact ⟨r, rfl⟩
      · rintro ⟨r, hr⟩
        rw [List.cons_append, List.cons_eq_cons] at hr
        exact ⟨hr.1, r, hr.2⟩

theorem sub_cons_split (n t : List Char) (c : Char) :
    n <:+: (c :: t) ↔ (∃ r, n ++ r = c :: t) ∨ n <:+: t := by
  constructor
  · rintro ⟨s, u, heq⟩
    cases s with
    | nil =>
      exact Or.inl ⟨u, by simpa using heq⟩
    | cons a s2 =>
      rw [List.cons_append, List.cons_append, List.cons_eq_cons] at heq
      exact Or.inr ⟨s2, u, by simpa using heq.2⟩
  · rintro (⟨r, h⟩ | ⟨s, u, h⟩)
    · exact ⟨[], r, by simpa using h⟩
    · exact ⟨c :: s, u, by rw [← h]; simp⟩

/-- The executable substring check decides the contiguous-substring
relation. -/
theorem containsSub_iff (n : List Char) :
    ∀ h, containsSub n h = true ↔ n <:+: h := by
  intro h
  induction h with
  | nil =>
    show n.isEmpty = true ↔ n <:+: []
    rw [List.isEmpty_iff]
    constructor
    · rintro rfl
      exact ⟨[], [], rfl⟩
    · intro hinf
      exact List.sublist_nil.mp hinf.sublist
  | cons c t ih =>
    rw [show containsSub n (c :: t) = (startsWithL n (c :: t) || containsSub n t) from rfl,
        Bool.or_eq_true, startsWithL_iff, ih, sub_cons_split]

/-- C1: Once a newer search B has been started, the result of an older
search A is never rendered afterwards: in the event log of any execution,
if the issue of A precedes the issue of B, then no render of A occurs
after the issue of B. Starting B aborts the fetch of A, whose rejection
settles immediately, so after both searches complete the grid shows the
outcome of B (its rendered tools, or its failure-driven hidden and cleared
state), never the tools of A. -/
theorem claim_C1_stale_never_rendered (evs : List MEv) (a b : Nat)
    (ta tb : List Char) (tl : List Tool)
    (hab : [LogEntry.issued a ta, LogEntry.issued b tb].Sublist (exec evs).log) :
    ¬ [LogEntry.issued b tb, LogEntry.rendered a tl].Sublist (exec evs).log := by
  intro hcon
  obtain ⟨hG, -, -⟩ := minv_exec evs
  have h1 : a < b := hG.2.1 a b ta tb hab
  have h2 : b ≤ a := hG.2.2 a b tb tl hcon
  omega

/-- C1 witness: in the hello-then-world trace the hello search is issued
before the world search, and no render of the hello search occurs after
the world search starts. -/
theorem claim_C1_stale_never_rendered_witness :
    [LogEntry.issued 0 (jsTrim "hello".toList),
     LogEntry.issued 1 (jsTrim "world".toList)].Sublist (exec traceAB).log ∧
    ¬ [LogEntry.issued 1 (jsTrim "world".toList),
       LogEntry.rendered 0 [demoTool]].Sublist (exec traceAB).log :=
  ⟨by decide, claim_C1_stale_never_rendered traceAB 0 1 (jsTrim "hello".toList)
    (jsTrim "world".toList) [demoTool] (by decide)⟩

/-- C4: At most one request is ever in flight, and whenever a fired run
issues a new request it first aborts the in-flight one: after the step,
every previously pending request has been aborted (logged and removed from
flight) and the freshly issued request is the only one in flight. -/
theorem claim_C4_single_flight_abort (evs : List MEv) (v : List Char)
    (hv : 3 ≤ (jsTrim v).length) :
    (exec evs).pending.length ≤ 1 ∧
    (∀ r ∈ (exec evs).pending,
      LogEntry.aborted r.rid ∈ (step (exec evs) (MEv.fire v)).log ∧
      r ∉ (step (exec evs) (MEv.fire v)).pending) ∧
    (step (exec evs) (MEv.fire v)).pending =
      [Req.mk (exec evs).nextId (exec evs).nextId (jsTrim v)] := by
  obtain ⟨hG, hLen, hPend⟩ := minv_exec evs
  have hnot : ¬ (jsTrim v).length < 3 := by omega
  have hab : ((exec evs).pending.filter
      fun r => (exec evs).lastController == some r.ctrl) = (exec evs).pending := by
    rw [List.filter_eq_self]
    intro r hr
    simp [(hPend r hr).1]
  have hkept : ((exec evs).pending.filter
      fun r => !((exec evs).lastController == some r.ctrl)) = [] := by
    rw [List.filter_eq_nil_iff]
    intro r hr
    simp [(hPend r hr).1]
  have hstep : step (exec evs) (MEv.fire v) = fireStep (exec evs) v := rfl
  have hfire : fireStep (exec evs) v =
      { pending := [Req.mk (exec evs).nextId (exec evs).nextId (jsTrim v)],
        lastController := some (exec evs).nextId,
        nextId := (exec evs).nextId + 1,
        hidden := if (exec evs).pending.isEmpty then (exec evs).hidden else true,
        grid := if (exec evs).pending.isEmpty then (exec evs).grid else [],
        log := (exec evs).log ++
               (exec evs).pending.map (fun r => LogEntry.aborted r.rid) ++
               [LogEntry.issued (exec evs).nextId (jsTrim v)] } := by
    unfold fireStep
    rw [if_neg hnot, hab, hkept, List.nil_append]
  refine ⟨hLen, ?_, ?_⟩
  · intro r hr
    rw [hstep, hfire]
    constructor
    · refine List.mem_append.mpr (Or.inl (List.mem_append.mpr (Or.inr ?_)))
      exact List.mem_map.mpr ⟨r, hr, rfl⟩
    · intro hmem
      rw [List.mem_singleton] at hmem
      have h2 := (hPend r hr).2
      rw [hmem] at h2
      simp at h2
  · rw [hstep, hfire]

/-- C4 witness: with the hello request in flight, firing a world search
aborts request 0 and leaves exactly the new request 1 in flight. -/
theorem claim_C4_single_flight_abort_witness :
    3 ≤ (jsTrim "world".toList).length ∧
    LogEntry.aborted 0 ∈ (step (exec traceHello) (MEv.fire "world".toList)).log ∧
    (step (exec traceHello) (MEv.fire "world".toList)).pending =
      [Req.mk (exec traceHello).nextId (exec traceHello).nextId
        (jsTrim "world".toList)] := by
  have h := claim_C4_single_flight_abort traceHello "world".toList (by decide)
  have hmem : reqHello ∈ (exec traceHello).pending := by decide
  exact ⟨by decide, (h.2.1 reqHello hmem).1, h.2.2⟩

/-- C5: For every input whose trimmed value has length below 3, the fired
run issues no network request: it hides the results panel, clears the grid
and returns, leaving the log, the in-flight set and the issued requests
unchanged. -/
theorem claim_C5_short_input (s : MState) (v : List Char)
    (h : (jsTrim v).length < 3) :
    step s (MEv.fire v) = { s with hidden := true, grid := [] } ∧
    (step s (MEv.fire v)).log = s.log ∧
    (step s (MEv.fire v)).pending = s.pending ∧
    issuedTasks (step s (MEv.fire v)) = issuedTasks s := by
  have hstep : step s (MEv.fire v) = hideClear s := by
    show fireStep s v = hideClear s
    unfold fireStep
    rw [if_pos h]
  exact ⟨hstep, by rw [hstep]; rfl, by rw [hstep]; rfl, by rw [hstep]; rfl⟩

/-- C5 witness: an input of ab surrounded by spaces trims to length 2, so
the fired run hides the panel, clears the grid and issues nothing. -/
theorem claim_C5_short_input_witness :
    (jsTrim "  ab ".toList).length < 3 ∧
    step initState (MEv.fire "  ab ".toList) =
      { initState with hidden := true, grid := [] } :=
  ⟨by decide, (claim_C5_short_input initState "  ab ".toList (by decide)).1⟩

/-- C6 counterexample: the claim says a non-2xx HTTP status is treated as
failure with the panel hidden and the grid cleared, but postJSON never
inspects the status: a 500 response whose body is valid JSON with a
non-empty tools list is rendered and the panel is shown. -/
theorem claim_C6_counterexample :
    (respondStep (exec traceHello) 0
      (NetOutcome.response 500 (some (JData.obj (some [demoTool]))))).hidden = false := by
  rfl

/-- C6 amended: a transport error, a body that fails to parse as JSON, and
a parsed null document are all handled identically and silently: the same
resulting state, with the panel hidden, the grid cleared and the log
untouched (no message, no retry, no new request). The rejection of an
aborted request is handled by the same catch: the fired run that aborts it
also leaves the panel hidden and the grid cleared. The HTTP status of a
response, however, is never inspected, so a non-2xx response with a valid
JSON body is processed as a success. -/
theorem claim_C6_failures_silent (s : MState) (r : Req) (st st2 : Nat)
    (v : List Char) (hp : s.pending = [r])
    (hctrl : s.lastController = some r.ctrl) (hv : 3 ≤ (jsTrim v).length) :
    respondStep s r.rid NetOutcome.netError =
      respondStep s r.rid (NetOutcome.response st none) ∧
    respondStep s r.rid NetOutcome.netError =
      respondStep s r.rid (NetOutcome.response st2 (some JData.nullv)) ∧
    (respondStep s r.rid NetOutcome.netError).hidden = true ∧
    (respondStep s r.rid NetOutcome.netError).grid = [] ∧
    (respondStep s r.rid NetOutcome.netError).log = s.log ∧
    (fireStep s v).hidden = true ∧
    (fireStep s v).grid = [] := by
  have hfind : s.pending.find? (fun q => q.rid == r.rid) = some r := by
    rw [hp]
    simp [List.find?]
  have hresp : ∀ res : NetOutcome, respondStep s r.rid res =
      match res with
      | NetOutcome.netError =>
        hideClear { s with pending := s.pending.filter fun q => !(q.rid == r.rid) }
      | NetOutcome.response _ none =>
        hideClear { s with pending := s.pending.filter fun q => !(q.rid == r.rid) }
      | NetOutcome.response _ (some JData.nullv) =>
        hideClear { s with pending := s.pending.filter fun q => !(q.rid == r.rid) }
      | NetOutcome.response _ (some (JData.obj toolsOpt)) =>
        if (toolsOpt.getD []).isEmpty then
          hideClear { s with pending := s.pending.filter fun q => !(q.rid == r.rid) }
        else
          { s with pending := s.pending.filter fun q => !(q.rid == r.rid),
                   grid := List.flatten (((toolsOpt.getD []).take 5).map renderToolCard),
                   hidden := false,
                   log := s.log ++ [LogEntry.rendered r.rid (toolsOpt.getD [])] } := by
    intro res
    unfold respondStep
    rw [hfind]
  have hfireAb : (s.pending.filter fun q => s.lastController == some q.ctrl) = [r] := by
    rw [hp]
    simp [hctrl]
  refine ⟨?_, ?_, ?_, ?_, ?_, ?_, ?_⟩
  · rw [hresp, hresp]
  · rw [hresp, hresp]
  · rw [hresp]; rfl
  · rw [hresp]; rfl
  · rw [hresp]; rfl
  · unfold fireStep
    rw [if_neg (by omega), hfireAb]
    rfl
  · unfold fireStep
    rw [if_neg (by omega), hfireAb]
    rfl

/-- C6 witness: with the hello request in flight, a transport error and a
malformed body produce the same hidden, cleared, silent state. -/
theorem claim_C6_failures_silent_witness :
    respondStep (exec traceHello) 0 NetOutcome.netError =
      respondStep (exec traceHello) 0 (NetOutcome.response 200 none) ∧
    (respondStep (exec traceHello) 0 NetOutcome.netError).hidden = true ∧
    (respondStep (exec traceHello) 0 NetOutcome.netError).grid = [] := by
  have h := claim_C6_failures_silent (exec traceHello) reqHello 200 404
    "world".toList (by decide) (by decide) (by decide)
  exact ⟨h.1, h.2.2.1, h.2.2.2.1⟩

/-- C9: A successful response with an empty tools list, and one whose
parsed body lacks the tools field (or has it null), behave identically:
the panel is hidden, the grid is cleared, the log is untouched and no
error is raised. -/
theorem claim_C9_empty_tools (s : MState) (r : Req) (st st2 : Nat)
    (hp : s.pending = [r]) :
    respondStep s r.rid (NetOutcome.response st (some (JData.obj (some [])))) =
      respondStep s r.rid (NetOutcome.response st2 (some (JData.obj none))) ∧
    (respondStep s r.rid
      (NetOutcome.response st (some (JData.obj (some []))))).hidden = true ∧
    (respondStep s r.rid
      (NetOutcome.response st (some (JData.obj (some []))))).grid = [] ∧
    (respondStep s r.rid
      (NetOutcome.response st (some (JData.obj (some []))))).log = s.log := by
  have hfind : s.pending.find? (fun q => q.rid == r.rid) = some r := by
    rw [hp]
    simp [List.find?]
  have hone : respondStep s r.rid (NetOutcome.response st (some (JData.obj (some [])))) =
      hideClear { s with pending := s.pending.filter fun q => !(q.rid == r.rid) } := by
    unfold respondStep
    rw [hfind]
    rfl
  have htwo : respondStep s r.rid (NetOutcome.response st2 (some (JData.obj none))) =
      hideClear { s with pending := s.pending.filter fun q => !(q.rid == r.rid) } := by
    unfold respondStep
    rw [hfind]
    rfl
  refine ⟨hone.trans htwo.symm, ?_, ?_, ?_⟩
  · rw [hone]; rfl
  · rw [hone]; rfl
  · rw [hone]; rfl

/-- C9 witness: with the hello request in flight, an empty tools list and
an absent tools field both hide the panel and clear the grid. -/
theorem claim_C9_empty_tools_witness :
    respondStep (exec traceHello) 0 (NetOutcome.response 200 (some (JData.obj (some [])))) =
      respondStep (exec traceHello) 0 (NetOutcome.response 404 (some (JData.obj none))) ∧
    (respondStep (exec traceHello) 0
      (NetOutcome.response 200 (some (JData.obj (some []))))).hidden = true := by
  have h := claim_C9_empty_tools (exec traceHello) reqHello 200 404 (by decide)
  exact ⟨h.1, h.2.1⟩

/-- C8: A successful response with a non-empty tools list renders exactly
the first min(5, length) tools, in the original order (the rendered cards
are the cards of the prefix tools.take 5), shows the panel, and within each
card the rendered tag pills are exactly the first min(3, length) entries of
use_cases. -/
theorem claim_C8_first_five (s : MState) (r : Req) (st : Nat)
    (tools : List Tool) (hp : s.pending = [r]) (hne : tools ≠ []) :
    (respondStep s r.rid
      (NetOutcome.response st (some (JData.obj (some tools))))).grid =
        List.flatten ((tools.take 5).map renderToolCard) ∧
    (respondStep s r.rid
      (NetOutcome.response st (some (JData.obj (some tools))))).hidden = false ∧
    (tools.take 5).length = min 5 tools.length ∧
    tools.take 5 <+: tools ∧
    ∀ t : Tool, (∃ u w, renderToolCard t =
        u ++ List.flatten ((((t.use_cases).getD []).take 3).map pillMuted) ++ w) ∧
      (((t.use_cases).getD []).take 3).length =
        min 3 ((t.use_cases).getD []).length := by
  have hfind : s.pending.find? (fun q => q.rid == r.rid) = some r := by
    rw [hp]
    simp [List.find?]
  have hemp : tools.isEmpty = false := by
    cases tools with
    | nil => exact absurd rfl hne
    | cons a t => rfl
  have hrender : respondStep s r.rid
      (NetOutcome.response st (some (JData.obj (some tools)))) =
      { s with pending := s.pending.filter fun q => !(q.rid == r.rid),
               grid := List.flatten ((tools.take 5).map renderToolCard),
               hidden := false,
               log := s.log ++ [LogEntry.rendered r.rid tools] } := by
    unfold respondStep
    rw [hfind]
    show (if tools.isEmpty = true then _ else _) = _
    rw [hemp]
    rfl
  refine ⟨by rw [hrender], by rw [hrender], List.length_take .., 
    ⟨tools.drop 5, List.take_append_drop ..⟩, ?_⟩
  intro t
  constructor
  · refine ⟨cardA1 ++ escapeHTML (jsOr t.icon "AI".toList) ++ cardA2 ++ hrefOpen ++
      toolHref t ++ cardA3 ++ escapeHTML (jsString t.name) ++ cardA4 ++
      escapeHTML (jsOr t.pricing_type []) ++ cardA5 ++
      escapeHTML (jsOr t.description []) ++ cardA6 ++
      escapeHTML (jsOr t.category []) ++ cardA7,
      cardA8 ++ hrefOpen ++ jsString t.url ++ cardA9 ++ hrefOpen ++ toolHref t ++
      cardA10, ?_⟩
    unfold renderToolCard useCasePills
    simp [List.append_assoc]
  · exact List.length_take ..

/-- C8 witness: a seven-tool response renders exactly five cards. -/
theorem claim_C8_first_five_witness :
    (respondStep (exec traceHello) 0
      (NetOutcome.response 200 (some (JData.obj (some sevenTools))))).hidden = false ∧
    (sevenTools.take 5).length = 5 ∧
    (respondStep (exec traceHello) 0
      (NetOutcome.response 200 (some (JData.obj (some sevenTools))))).grid =
        List.flatten ((sevenTools.take 5).map renderToolCard) := by
  have h := claim_C8_first_five (exec traceHello) reqHello 200 sevenTools
    (by decide) (by decide)
  exact ⟨h.2.1, h.2.2.1.trans (by decide), h.1⟩

/-- C2: renderToolCard HTML-escapes the text fields before insertion. The
source escaping equals the character-wise escaping of the five characters
ampersand, less-than, greater-than, double quote, single quote; for every
tool whose url carries no raw less-than sign, the rendered card contains
exactly the 30 template less-than signs plus two per rendered use-case
pill, so none of the six escaped text holes (name, description, category,
pricing_type, icon, use-case entries) can inject markup; and rendering the
tool whose name is a script tag yields output containing the escaped
form and no live script element (no occurrence of an opening script tag). -/
theorem claim_C2_escaping :
    (∀ s, escapeHTML s = escapeHTMLSpec s) ∧
    (∀ t : Tool, '<' ∉ jsString t.url →
      List.count '<' (renderToolCard t) =
        30 + 2 * min 3 ((t.use_cases).getD []).length) ∧
    ("&lt;script&gt;x&lt;/script&gt;".toList <:+: renderToolCard scriptTool) ∧
    ¬ ("<script".toList <:+: renderToolCard scriptTool) := by
  refine ⟨escapeHTML_eq_spec, ?_, ?_, ?_⟩
  · intro t hurl
    rw [count_lt_render t hurl, List.length_take]
  · rw [← containsSub_iff]
    decide
  · rw [← containsSub_iff]
    simp only [Bool.not_eq_true]
    decide

/-- C2 witness: the demonstration tool has a url without raw less-than
signs and no use cases, so its card contains exactly the 30 template
less-than signs. -/
theorem claim_C2_escaping_witness :
    ('<' ∉ jsString demoTool.url) ∧
    List.count '<' (renderToolCard demoTool) = 30 := by
  have h := claim_C2_escaping.2.1 demoTool (by decide)
  exact ⟨by decide, h.trans (by decide)⟩

/-- C7 counterexample: the claim says absent text fields render as the
empty string and never as the literal word undefined, but a tool with all
fields absent renders its name hole as the literal text undefined (it has
no or-fallback, so String(undefined) applies) and its icon hole as the
fallback text AI rather than the empty string. -/
theorem claim_C7_counterexample :
    (">undefined</a>".toList <:+: renderToolCard emptyTool) ∧
    (">AI</span>".toList <:+: renderToolCard emptyTool) := by
  constructor
  · rw [← containsSub_iff]
    decide
  · rw [← containsSub_iff]
    decide

/-- C7 amended: an absent description, category or pricing_type renders
exactly as the empty string would; an absent icon renders as the fallback
text AI; an absent name renders as the literal word undefined (the
String() coercion of undefined), not as the empty string. -/
theorem claim_C7_absent_fields (t : Tool) :
    renderToolCard { t with description := none } =
      renderToolCard { t with description := some [] } ∧
    renderToolCard { t with category := none } =
      renderToolCard { t with category := some [] } ∧
    renderToolCard { t with pricing_type := none } =
      renderToolCard { t with pricing_type := some [] } ∧
    renderToolCard { t with icon := none } =
      renderToolCard { t with icon := some "AI".toList } ∧
    renderToolCard { t with name := none } =
      renderToolCard { t with name := some "undefined".toList } := by
  refine ⟨?_, ?_, ?_, ?_, ?_⟩ <;> rfl

/-- C10: every rendered card links its detail anchor to /tools/ followed by
the URL-encoded slug, and its visit anchor carries the raw url verbatim,
immediately followed by the attributes that open a new browsing context
with the opener window and the referrer isolated. -/
theorem claim_C10_links (t : Tool) :
    (("<a href=\"/tools/".toList ++ encodeURIComponent (jsString t.slug) ++
      "\" class=\"truncate".toList) <:+: renderToolCard t) ∧
    (("<a href=\"".toList ++ jsString t.url ++
      "\" target=\"_blank\" rel=\"noopener noreferrer\"".toList) <:+:
        renderToolCard t) := by
  constructor
  · have hsplit1 : "<a href=\"/tools/".toList = hrefOpen ++ "/tools/".toList := by
      decide
    have hsplit3 : cardA3 = "\" class=\"truncate".toList ++
        " text-base font-semibold tracking-tight text-white hover:text-white/90\">".toList := by
      decide
    refine ⟨cardA1 ++ escapeHTML (jsOr t.icon "AI".toList) ++ cardA2,
      " text-base font-semibold tracking-tight text-white hover:text-white/90\">".toList ++
      escapeHTML (jsString t.name) ++ cardA4 ++ escapeHTML (jsOr t.pricing_type []) ++
      cardA5 ++ escapeHTML (jsOr t.description []) ++ cardA6 ++
      escapeHTML (jsOr t.category []) ++ cardA7 ++ useCasePills t ++ cardA8 ++
      hrefOpen ++ jsString t.url ++ cardA9 ++ hrefOpen ++ toolHref t ++ cardA10, ?_⟩
    rw [hsplit1]
    unfold renderToolCard toolHref
    rw [hsplit3]
    simp [List.append_assoc]
  · have hsplit9 : cardA9 = "\" target=\"_blank\" rel=\"noopener noreferrer\"".toList ++
        " class=\"inline-flex items-center justify-center rounded-xl bg-white px-4 py-2 text-sm font-semibold text-slate-900 hover:bg-white/90\">Visit Tool</a>\n          ".toList := by
      decide
    refine ⟨cardA1 ++ escapeHTML (jsOr t.icon "AI".toList) ++ cardA2 ++ hrefOpen ++
      toolHref t ++ cardA3 ++ escapeHTML (jsString t.name) ++ cardA4 ++
      escapeHTML (jsOr t.pricing_type []) ++ cardA5 ++
      escapeHTML (jsOr t.description []) ++ cardA6 ++
      escapeHTML (jsOr t.category []) ++ cardA7 ++ useCasePills t ++ cardA8,
      " class=\"inline-flex items-center justify-center rounded-xl bg-white px-4 py-2 text-sm font-semibold text-slate-900 hover:bg-white/90\">Visit Tool</a>\n          ".toList ++
      hrefOpen ++ toolHref t ++ cardA10, ?_⟩
    unfold renderToolCard
    rw [hsplit9]
    simp [hrefOpen, List.append_assoc]

/-- C3 counterexample: the claim says every rapid input sequence issues
exactly one request carrying the final trimmed value, but a rapid sequence
whose final value trims below the length threshold issues no request at
all: abc then x, 100 apart, ends in zero issued requests. -/
theorem claim_C3_counterexample :
    Rapid insShort ∧
    insShort.getLast? = some (100, "x".toList) ∧
    issuedTasks (exec ((debounceTrace insShort).map (fun p => MEv.fire p.2))) = [] := by
  refine ⟨?_, by decide, by decide⟩
  unfold Rapid insShort
  rw [List.chain'_cons]
  exact ⟨by decide, by simp⟩

/-- C3 amended: a rapid input sequence (consecutive events less than 450
apart) produces exactly one debounce fire, 450 after its final event and
carrying the final input value: every earlier timer is cancelled by the
next input. The fired run then issues exactly one request carrying the
trimmed final value when that value has length at least 3, and no request
otherwise. -/
theorem claim_C3_debounce (ins : List (Nat × List Char)) (tn : Nat)
    (vn : List Char) (hlast : ins.getLast? = some (tn, vn)) (hch : Rapid ins) :
    debounceTrace ins = [(tn + 450, vn)] ∧
    issuedTasks (exec ((debounceTrace ins).map (fun p => MEv.fire p.2))) =
      (if 3 ≤ (jsTrim vn).length then [jsTrim vn] else []) := by
  have htr := debounceTrace_rapid ins tn vn hlast hch
  refine ⟨htr, ?_⟩
  rw [htr]
  by_cases hlen : (jsTrim vn).length < 3
  · rw [if_neg (by omega)]
    show issuedTasks (step initState (MEv.fire vn)) = []
    show issuedTasks (fireStep initState vn) = []
    unfold fireStep
    rw [if_pos hlen]
    rfl
  · rw [if_pos (by omega)]
    show issuedTasks (step initState (MEv.fire vn)) = [jsTrim vn]
    show issuedTasks (fireStep initState vn) = [jsTrim vn]
    unfold fireStep
    rw [if_neg hlen]
    rfl

/-- C3 witness: the rapid sequence hi then hello-world fires once, 550
into the run, and issues exactly one request carrying hello world. -/
theorem claim_C3_debounce_witness :
    insLong.getLast? = some (100, "hello world".toList) ∧
    Rapid insLong ∧
    debounceTrace insLong = [(550, "hello world".toList)] ∧
    issuedTasks (exec ((debounceTrace insLong).map (fun p => MEv.fire p.2))) =
      [jsTrim "hello world".toList] := by
  have hch : Rapid insLong := by
    unfold Rapid insLong
    rw [List.chain'_cons]
    exact ⟨by decide, by simp⟩
  have h := claim_C3_debounce insLong 100 "hello world".toList (by decide) hch
  exact ⟨by decide, hch, h.1, h.2.trans (by decide)⟩
